import Mathlib

/-!
Verification of the movie-recommender server pipeline (src/server/server.js).

The JavaScript code is shallowly embedded as follows.

* A JSON object (the structured query `queryParams`, a TMDB result item, a
  genre map) is an association list `List (String × α)` with the usual
  JavaScript object operations: `objGet` (property read), `objSet`
  (property assignment: overwrite in place, or append a fresh key at the
  end), `objDelete` (the `delete` operator).  Objects coming from
  `JSON.parse` have pairwise distinct keys, and all operations preserve
  that, so the association-list embedding is exact.
* Query-parameter values are carried as strings (the synthesis prompt asks
  the model for string values and the spec fixes "numeric-looking fields
  are carried as strings"); JavaScript truthiness on such a value is
  "the string is non-empty".
* Every remote call (OpenAI chat completion, TMDB person / keyword /
  genre / discover requests, `JSON.parse`) is an oracle passed in as a
  function or `Option` argument; `none` models a thrown error that the
  corresponding `catch` block swallows (or, for `JSON.parse`, a parse
  failure).  Everything the code does around those calls is translated
  directly.
-/

/-! ## JavaScript object operations on association lists -/

/-- Property read `o[k]`: the value at the first matching key. -/
def objGet {α : Type} : List (String × α) → String → Option α
  | [], _ => none
  | p :: rest, k => if p.1 = k then some p.2 else objGet rest k

/-- Property write `o[k] = v`: overwrite the first matching key in place,
or append a fresh key at the end, exactly like a JavaScript object. -/
def objSet {α : Type} : List (String × α) → String → α → List (String × α)
  | [], k, v => [(k, v)]
  | p :: rest, k, v => if p.1 = k then (k, v) :: rest else p :: objSet rest k v

/-- Property removal, the JavaScript `delete o[k]` operator. -/
def objDelete {α : Type} : List (String × α) → String → List (String × α)
  | [], _ => []
  | p :: rest, k => if p.1 = k then objDelete rest k else p :: objDelete rest k

theorem objGet_objDelete_self {α : Type} (l : List (String × α)) (k : String) :
    objGet (objDelete l k) k = none := by
  induction l with
  | nil => rfl
  | cons p rest ih =>
    by_cases h : p.1 = k
    · simp [objDelete, h, ih]
    · simp [objDelete, objGet, h, ih]

theorem objGet_objDelete_ne {α : Type} (l : List (String × α)) (k k' : String)
    (h : k' ≠ k) : objGet (objDelete l k) k' = objGet l k' := by
  induction l with
  | nil => rfl
  | cons p rest ih =>
    simp only [objDelete, objGet]
    by_cases hp : p.1 = k
    · rw [if_pos hp, ih, if_neg (fun hh : p.1 = k' => h (hh ▸ hp))]
    · rw [if_neg hp]
      simp only [objGet]
      by_cases hp' : p.1 = k'
      · rw [if_pos hp', if_pos hp']
      · rw [if_neg hp', if_neg hp', ih]

theorem objGet_objSet_self {α : Type} (l : List (String × α)) (k : String) (v : α) :
    objGet (objSet l k v) k = some v := by
  induction l with
  | nil => simp [objSet, objGet]
  | cons p rest ih =>
    by_cases h : p.1 = k
    · simp [objSet, objGet, h]
    · simp [objSet, objGet, h, ih]

theorem objGet_objSet_ne {α : Type} (l : List (String × α)) (k k' : String) (v : α)
    (h : k' ≠ k) : objGet (objSet l k v) k' = objGet l k' := by
  induction l with
  | nil =>
    simp only [objSet, objGet]
    rw [if_neg (fun hh : k = k' => h hh.symm)]
  | cons p rest ih =>
    simp only [objSet, objGet]
    by_cases hp : p.1 = k
    · rw [if_pos hp]
      simp only [objGet]
      rw [if_neg (fun hh : k = k' => h hh.symm), if_neg (fun hh : p.1 = k' => h (hh ▸ hp))]
    · rw [if_neg hp]
      simp only [objGet]
      by_cases hp' : p.1 = k'
      · rw [if_pos hp', if_pos hp']
      · rw [if_neg hp', if_neg hp', ih]

theorem objGet_mem_map_snd {α : Type} (l : List (String × α)) (k : String) (v : α)
    (h : objGet l k = some v) : v ∈ l.map Prod.snd := by
  induction l with
  | nil => simp [objGet] at h
  | cons p rest ih =>
    by_cases hp : p.1 = k
    · simp only [objGet, hp, if_pos] at h
      simp [← Option.some_inj.mp h]
    · simp only [objGet, hp, if_neg, ite_false] at h
      simp [ih h]

/-! ## Character-level string utilities

The JavaScript string primitives used by the server (`trim`, `split`,
`join`, `toLowerCase`, the two regex replacements of
`sanitizeAIResponse`) are implemented structurally over `List Char` so
that every definition evaluates by kernel reduction. -/

/-- The whitespace class of JavaScript regular expressions and
`String.prototype.trim`, restricted to its ASCII members. -/
def jsWs (c : Char) : Bool :=
  c = ' ' ∨ c = '\t' ∨ c = '\n' ∨ c = '\r' ∨ c = '\x0b' ∨ c = '\x0c'

/-- `String.prototype.trim` on a character list. -/
def trimChars (l : List Char) : List Char :=
  ((l.dropWhile jsWs).reverse.dropWhile jsWs).reverse

/-- `String.prototype.trim`. -/
def strTrim (s : String) : String := String.mk (trimChars s.data)

/-- `String.prototype.toLowerCase` (ASCII range, as used on genre names
and classifier labels). -/
def strToLower (s : String) : String := String.mk (s.data.map Char.toLower)

/-- `String.prototype.split` on a single-character separator:
`"".split(sep)` is `[""]`, and separators are not kept. -/
def splitOnChar (sep : Char) : List Char → List (List Char)
  | [] => [[]]
  | c :: rest =>
    match splitOnChar sep rest with
    | [] => [[c]]
    | g :: gs => if c = sep then [] :: g :: gs else (c :: g) :: gs

/-- `Array.prototype.join` with the given separator. -/
def joinSep (sep : String) : List String → String
  | [] => ""
  | [x] => x
  | x :: y :: rest => x ++ sep ++ joinSep sep (y :: rest)

/-- Split a string value on a separator character and `trim` every piece,
the `v.split(sep).map(n => n.trim())` idiom of the server. -/
def splitTrim (sep : Char) (v : String) : List String :=
  (splitOnChar sep v.data).map (fun cs => String.mk (trimChars cs))

/-! ## sanitizeAIResponse (server.js lines 60-66)

`sanitizeAIResponse` applies, in order:
1. `text.replace(/```json\s*/, '')` — remove the first occurrence of the
   literal marker followed by its greedy whitespace run;
2. `.replace(/```\s*$/, '')` — remove a trailing triple-backtick that is
   followed only by whitespace up to the end of the string;
3. `.trim()`;
4. `.replace(/\/\/.*$/gm, '')` — on every line, remove everything from
   the first `//` up to (excluding) the line terminator;
5. `.trim()`.
-/

/-- The backtick character, `U+0060`. -/
def backtickChar : Char := Char.ofNat 96

/-- The characters of the opening code-fence marker targeted by the first
regex of `sanitizeAIResponse`. -/
def fenceJson : List Char := "```json".toList

/-- The characters of a bare triple backtick. -/
def backtick3 : List Char := "```".toList

/-- `text.replace(/```json\s*/, '')`: scan left to right; at the first
position where the marker matches, drop it together with the following
whitespace run and keep the rest unchanged. -/
def replaceFenceJson (l : List Char) : List Char :=
  if fenceJson.isPrefixOf l then (l.drop fenceJson.length).dropWhile jsWs
  else
    match l with
    | [] => []
    | c :: cs => c :: replaceFenceJson cs

/-- `text.replace(/```\s*$/, '')`: if the string ends in a triple
backtick followed only by whitespace, remove that suffix; otherwise leave
the string unchanged. -/
def stripTrailingFence (l : List Char) : List Char :=
  let r := l.reverse.dropWhile jsWs
  if backtick3.isPrefixOf r then (r.drop backtick3.length).reverse else l

/-- `text.replace(/\/\/.*$/gm, '')`, run from left to right.  The flag
distinguishes the normal scanning mode from the inside-a-comment mode in
which characters are discarded until a line terminator. -/
def stripLC : Bool → List Char → List Char
  | _, [] => []
  | true, c :: rest =>
    if c = '\n' ∨ c = '\r' then c :: stripLC false rest else stripLC true rest
  | false, [c] => [c]
  | false, c₁ :: c₂ :: rest =>
    if c₁ = '/' ∧ c₂ = '/' then stripLC true rest
    else c₁ :: stripLC false (c₂ :: rest)

/-- Remove every JavaScript line comment, keeping line terminators. -/
def stripLineComments (l : List Char) : List Char := stripLC false l

/-- `true` when the character list contains two adjacent slashes, i.e.
when the comment-removal regex of `sanitizeAIResponse` has a match. -/
def hasDoubleSlash : List Char → Bool
  | [] => false
  | [_] => false
  | c₁ :: c₂ :: rest =>
    if c₁ = '/' ∧ c₂ = '/' then true else hasDoubleSlash (c₂ :: rest)

/-- `sanitizeAIResponse` (server.js lines 60-66). -/
def sanitizeAIResponse (text : String) : String :=
  let sanitized := trimChars (stripTrailingFence (replaceFenceJson text.data))
  String.mk (trimChars (stripLineComments sanitized))

/-! ## classifyRequest (server.js lines 69-107)

The OpenAI call is an oracle: `some s` is the model answering with raw
content `s`, `none` is a transport or model failure caught by the
surrounding `try`/`catch`. -/

/-- `classifyRequest`: normalize the model output with
`.trim().toLowerCase()` and map everything outside the two positive
labels — including a thrown error — to `"none"`. -/
def classifyRequest (modelResult : Option String) : String :=
  match modelResult with
  | none => "none"
  | some content =>
    let classification := strToLower (strTrim content)
    if classification = "movie" then "movie"
    else if classification = "tv" then "tv"
    else "none"

/-! ## generateTMDBQuery (server.js lines 110-213)

The structured query object produced by `JSON.parse` is an association
list of string-valued fields.  `jsonParse` is the `JSON.parse` oracle
(`none` models a thrown `SyntaxError`), `modelResult` the chat-completion
oracle (`none` models a transport failure caught by the outer
`try`/`catch`). -/

/-- The structured query and item objects of the pipeline. -/
abbrev QueryObj := List (String × String)

/-- `generateTMDBQuery`: trim the raw model answer, sanitize it, parse it;
on a parse failure or a transport failure return the empty query `{}`. -/
def generateTMDBQuery (jsonParse : String → Option QueryObj)
    (modelResult : Option String) : QueryObj :=
  match modelResult with
  | none => []
  | some content =>
    let rawAnswer := strTrim content
    let sanitizedAnswer := sanitizeAIResponse rawAnswer
    match jsonParse sanitizedAnswer with
    | none => []
    | some queryParams => queryParams

/-! ## Entity resolution (server.js lines 216-255)

`fetchActorIdsByNames` and `fetchKeywordIdsByNames` issue one TMDB search
per name and keep the first result's id when the result list is
non-empty; a thrown lookup error is caught and logged and the loop moves
on.  The per-name search is the oracle: `none` covers both "no results"
and "lookup threw", which contribute nothing to the output either way. -/

/-- `fetchActorIdsByNames(names, language)`. -/
def fetchActorIdsByNames (search : String → String → Option Nat)
    (names : List String) (language : String) : List Nat :=
  names.filterMap (fun name => search name language)

/-- `fetchKeywordIdsByNames(names)`. -/
def fetchKeywordIdsByNames (search : String → Option Nat)
    (names : List String) : List Nat :=
  names.filterMap search

/-! ## fetchFromTMDB (server.js lines 258-346)

The discovery request is assembled in four steps, translated one-for-one:

* `languageParam = queryParams.language || "en-US"` (computed first, from
  the unmodified query);
* step 3a — resolve `with_cast_names` (`processCastNames`);
* step 3b — resolve `with_keywords_names` (`processKeywordNames`);
* append the recognized parameters through the fixed `mappings`
  allow-list onto `api_key` and `language`.

The keyword merge reproduces the JavaScript value model exactly: the
pre-existing `with_keywords` entries are strings (the query values), the
freshly resolved ids are numbers, and `new Set([...])` compares with
SameValueZero, under which a string is never equal to a number.  `JsVal`
keeps that distinction. -/

/-- A JavaScript primitive as it occurs in the keyword-merge `Set`:
either a string split out of the query value or a numeric TMDB id. -/
inductive JsVal where
  | str (s : String)
  | num (n : Nat)
deriving DecidableEq

/-- `String(v)`, as applied by `Array.prototype.join`. -/
def jsValStr : JsVal → String
  | .str s => s
  | .num n => Nat.repr n

/-- Deduplication with the semantics of `[...new Set(l)]`: keep the first
occurrence of every element, in insertion order. -/
def dedupAcc (seen : List JsVal) : List JsVal → List JsVal
  | [] => []
  | x :: xs => if x ∈ seen then dedupAcc seen xs else x :: dedupAcc (x :: seen) xs

/-- `[...new Set(l)]`. -/
def jsSetToList (l : List JsVal) : List JsVal := dedupAcc [] l

/-- `queryParams.language || "en-US"` (server.js line 263). -/
def languageOf (queryParams : QueryObj) : String :=
  match objGet queryParams "language" with
  | some v => if v = "" then "en-US" else v
  | none => "en-US"

/-- Step 3a (server.js lines 266-273): when `with_cast_names` is truthy,
split it on commas, trim, resolve each name, install `with_cast` when at
least one id resolved, and delete `with_cast_names`.  When the field is
absent or falsy the block is skipped entirely. -/
def processCastNames (personSearch : String → String → Option Nat)
    (languageParam : String) (queryParams : QueryObj) : QueryObj :=
  match objGet queryParams "with_cast_names" with
  | none => queryParams
  | some v =>
    if v = "" then queryParams
    else
      let namesArr := splitTrim ',' v
      let actorIds := fetchActorIdsByNames personSearch namesArr languageParam
      let qp :=
        if actorIds.isEmpty then queryParams
        else objSet queryParams "with_cast" (joinSep "," (actorIds.map Nat.repr))
      objDelete qp "with_cast_names"

/-- Step 3b (server.js lines 276-291): when `with_keywords_names` is
truthy, split it on commas, trim, resolve each keyword; when at least one
id resolved, either merge into a truthy pre-existing `with_keywords`
through `[...new Set([...existing, ...keywordIds])].join("|")`, or set
`with_keywords = keywordIds.join("|")`; finally delete
`with_keywords_names`. -/
def processKeywordNames (keywordSearch : String → Option Nat)
    (queryParams : QueryObj) : QueryObj :=
  match objGet queryParams "with_keywords_names" with
  | none => queryParams
  | some v =>
    if v = "" then queryParams
    else
      let kwNamesArr := splitTrim ',' v
      let keywordIds := fetchKeywordIdsByNames keywordSearch kwNamesArr
      let qp :=
        if keywordIds.isEmpty then queryParams
        else
          match objGet queryParams "with_keywords" with
          | some existingRaw =>
            if existingRaw = "" then
              objSet queryParams "with_keywords" (joinSep "|" (keywordIds.map Nat.repr))
            else
              let existing := splitTrim '|' existingRaw
              let combined :=
                jsSetToList (existing.map JsVal.str ++ keywordIds.map JsVal.num)
              objSet queryParams "with_keywords" (joinSep "|" (combined.map jsValStr))
          | none =>
            objSet queryParams "with_keywords" (joinSep "|" (keywordIds.map Nat.repr))
      objDelete qp "with_keywords_names"

/-- The fixed `mappings` allow-list (server.js lines 300-320), from
internal field name to remote query-parameter name. -/
def tmdbMappings : List (String × String) :=
  [("query", "query"),
   ("with_genres", "with_genres"),
   ("with_cast", "with_cast"),
   ("with_crew", "with_crew"),
   ("primary_release_date_gte", "primary_release_date.gte"),
   ("primary_release_date_lte", "primary_release_date.lte"),
   ("first_air_date_gte", "first_air_date.gte"),
   ("first_air_date_lte", "first_air_date.lte"),
   ("vote_average_gte", "vote_average.gte"),
   ("vote_average_lte", "vote_average.lte"),
   ("vote_count_gte", "vote_count.gte"),
   ("sort_by", "sort_by"),
   ("with_original_language", "with_original_language"),
   ("year", "year"),
   ("with_keywords", "with_keywords"),
   ("with_runtime_gte", "with_runtime.gte"),
   ("with_runtime_lte", "with_runtime.lte")]

/-- The `for key in queryParams` loop (server.js lines 323-328): a field
contributes a query parameter exactly when `mappings[key]` exists and the
value is truthy; the parameter name is the allow-list image of the field
name. -/
def appendRecognizedParams (queryParams : QueryObj) : List (String × String) :=
  queryParams.filterMap (fun p =>
    (objGet tmdbMappings p.1).bind (fun tmdbKey =>
      if p.2 = "" then none else some (tmdbKey, p.2)))

/-- The complete parameter list of the discovery request URL built by
`fetchFromTMDB`: the credential, the language parameter, then the
allow-listed fields of the post-resolution query. -/
def fetchUrlParams (personSearch : String → String → Option Nat)
    (keywordSearch : String → Option Nat) (apiKey : String)
    (queryParams : QueryObj) : List (String × String) :=
  let languageParam := languageOf queryParams
  let qp1 := processCastNames personSearch languageParam queryParams
  let qp2 := processKeywordNames keywordSearch qp1
  ("api_key", apiKey) :: ("language", languageParam) :: appendRecognizedParams qp2

/-- `fetchFromTMDB` (server.js lines 258-346).  `discover` is the axios
GET oracle mapping the parameter list of the request URL to `data.results`
(`none` models a transport failure).  Returns the post-resolution query
object (the same object the caller's `queryParams` now refers to) and the
result list, each item stamped with its `media_type`. -/
def fetchFromTMDB (personSearch : String → String → Option Nat)
    (keywordSearch : String → Option Nat)
    (discover : List (String × String) → Option (List QueryObj))
    (apiKey : String) (queryParams : QueryObj) (requestType : String) :
    QueryObj × List QueryObj :=
  let languageParam := languageOf queryParams
  let qp1 := processCastNames personSearch languageParam queryParams
  let qp2 := processKeywordNames keywordSearch qp1
  match discover (fetchUrlParams personSearch keywordSearch apiKey queryParams) with
  | none => (qp2, [])
  | some results =>
    (qp2, results.map (fun r =>
      objSet r "media_type" (if requestType = "movie" then "movie" else "tv")))

/-! ## refineResultsWithAI and generateNormalResponse (server.js lines 349-421) -/

/-- The fixed no-matches sentence of `refineResultsWithAI`, referencing
the request's media kind (server.js line 352). -/
def noMatchesMessage (requestType : String) : String :=
  "I couldn\x27t find any " ++ (if requestType = "movie" then "movies" else "TV shows")
    ++ " matching your criteria. Please try a different request."

/-- `refineResultsWithAI` (server.js lines 349-396).  On an empty result
list the fixed no-matches sentence is returned before the model oracle is
consulted; otherwise the model is called on the original message, the top
five items and the media kind, and a failure yields the fixed apology. -/
def refineResultsWithAI (model : String → List QueryObj → String → Option String)
    (originalUserMessage : String) (tmdbResults : List QueryObj)
    (requestType : String) : String :=
  if tmdbResults.isEmpty then noMatchesMessage requestType
  else
    match model originalUserMessage (tmdbResults.take 5) requestType with
    | none => "Sorry, I had trouble analyzing the results."
    | some content => strTrim content

/-- One message of the conversation history posted by the client. -/
structure ConversationMessage where
  role : String
  content : String
deriving DecidableEq

/-- `generateNormalResponse` (server.js lines 399-421): one model call
over the full supplied history; a failure yields the fixed apology. -/
def generateNormalResponse (model : List ConversationMessage → Option String)
    (messages : List ConversationMessage) : String :=
  match model messages with
  | none => "Sorry, I couldn\x27t process your request at the moment."
  | some content => strTrim content

/-! ## Genre cache (server.js lines 25-57) -/

/-- One genre record of a TMDB genre-list response. -/
structure TMDBGenre where
  name : String
  id : Nat
deriving DecidableEq

/-- The two process-wide genre mappings. -/
structure GenreState where
  movieGenreMap : List (String × Nat)
  tvGenreMap : List (String × Nat)
deriving DecidableEq

/-- The `reduce` building a fresh map from lowercase genre name to id
(server.js lines 34-37 and 43-46). -/
def buildGenreMap (genres : List TMDBGenre) : List (String × Nat) :=
  genres.foldl (fun m g => objSet m (strToLower g.name) g.id) []

/-- `fetchGenresFromTMDB` (server.js lines 29-51) as a transition on the
two cached maps.  `movieFetch` and `tvFetch` are the two axios GET
oracles (`none` models a thrown network or parse error).  The single
`try`/`catch` wraps both sequential fetch-and-assign steps: a failing
movie fetch leaves both maps, while a failing TV fetch aborts after the
movie map has already been assigned. -/
def fetchGenresFromTMDB (st : GenreState)
    (movieFetch tvFetch : Option (List TMDBGenre)) : GenreState :=
  match movieFetch with
  | none => st
  | some movieGenres =>
    let st1 : GenreState := ⟨buildGenreMap movieGenres, st.tvGenreMap⟩
    match tvFetch with
    | none => st1
    | some tvGenres => ⟨st1.movieGenreMap, buildGenreMap tvGenres⟩

/-! ## The /api/respond orchestrator (server.js lines 424-465) -/

/-- The bundle of remote-call oracles one request is processed against:
each field is one call site, keyed by everything of this process's state
that the corresponding JavaScript call depends on. -/
structure Env where
  classifyModel : String → Option String
  synthModel : String → String → Option String
  jsonParse : String → Option QueryObj
  personSearch : String → String → Option Nat
  keywordSearch : String → Option Nat
  discover : List (String × String) → Option (List QueryObj)
  refineModel : String → List QueryObj → String → Option String
  normalModel : List ConversationMessage → Option String
  apiKey : String

/-- The observable outcome of `POST /api/respond`: `badRequest` is the
`res.status(400).json({error})` reply, `ok` the `res.json({...})` reply
with HTTP status 200 carrying the response text, the TMDB items, the
echoed (post-resolution) query object and the request type — the three
optional fields are absent on the general-response path. -/
inductive RespondResult where
  | badRequest (error : String)
  | ok (response : String) (tmdbData : Option (List QueryObj))
      (queryParams : Option QueryObj) (requestType : Option String)
deriving DecidableEq

/-- The `/api/respond` handler (server.js lines 424-465).  `none` for the
body's `messages` models an absent field (`!messages`), `some []` an
empty list (`!messages.length`); both are rejected with 400 before any
pipeline step runs.  Otherwise the last message's content is classified
and the request takes either the recommendation path or the
general-response path. -/
def apiRespond (env : Env) (messages : Option (List ConversationMessage)) :
    RespondResult :=
  match messages with
  | none => .badRequest "No messages provided"
  | some msgs =>
    match msgs.getLast? with
    | none => .badRequest "No messages provided"
    | some lastMsg =>
      let userMessage := lastMsg.content
      let requestType := classifyRequest (env.classifyModel userMessage)
      if requestType = "movie" ∨ requestType = "tv" then
        let queryParams :=
          generateTMDBQuery env.jsonParse (env.synthModel userMessage requestType)
        let fetched := fetchFromTMDB env.personSearch env.keywordSearch env.discover
          env.apiKey queryParams requestType
        let refinedAnswer :=
          refineResultsWithAI env.refineModel userMessage fetched.2 requestType
        .ok refinedAnswer (some fetched.2) (some fetched.1) (some requestType)
      else
        .ok (generateNormalResponse env.normalModel msgs) none none none

/-! ## Shared helper lemmas for the claim theorems -/

theorem head_not_ws_of_dropWhile_eq {c : Char} {cs : List Char}
    (h : (c :: cs).dropWhile jsWs = c :: cs) : jsWs c = false := by
  by_cases hc : jsWs c = true
  · rw [List.dropWhile_cons, if_pos hc] at h
    have hle : (cs.dropWhile jsWs).length ≤ cs.length :=
      (@List.dropWhile_sublist Char cs jsWs).length_le
    rw [h] at hle
    simp at hle
  · simpa using hc

theorem isEmpty_false_of_ne_nil {α : Type} {l : List α} (h : l ≠ []) :
    l.isEmpty = false := by
  cases l with
  | nil => exact absurd rfl h
  | cons a as => rfl

/-- A dummy oracle bundle: every remote call fails. -/
def dummyEnv : Env where
  classifyModel := fun _ => none
  synthModel := fun _ _ => none
  jsonParse := fun _ => none
  personSearch := fun _ _ => none
  keywordSearch := fun _ => none
  discover := fun _ => none
  refineModel := fun _ _ _ => none
  normalModel := fun _ => none
  apiKey := "KEY"

/-! ## C1 — the discovery URL only carries allow-listed parameters -/

/-- C1: every parameter of the catalog request URL built by
`fetchFromTMDB` is the credential, the language parameter, or the
allow-list image of a field with a truthy value; a field whose name is
outside the fixed `mappings` allow-list, or whose value is empty, never
contributes a parameter — for every structured query, including queries
carrying arbitrary extra field names. -/
theorem fetchUrlParams_allowlisted (personSearch : String → String → Option Nat)
    (keywordSearch : String → Option Nat) (apiKey : String) (queryParams : QueryObj)
    (p : String × String)
    (hp : p ∈ fetchUrlParams personSearch keywordSearch apiKey queryParams) :
    p.1 = "api_key" ∨ p.1 = "language"
      ∨ (p.1 ∈ tmdbMappings.map Prod.snd ∧ p.2 ≠ "") := by
  simp only [fetchUrlParams, List.mem_cons] at hp
  rcases hp with h | h | h
  · left; rw [h]
  · right; left; rw [h]
  · right; right
    simp only [appendRecognizedParams] at h
    rcases List.mem_filterMap.mp h with ⟨a, _, hfa⟩
    cases hg : objGet tmdbMappings a.1 with
    | none => rw [hg, Option.none_bind] at hfa; exact absurd hfa (by simp)
    | some tmdbKey =>
      rw [hg, Option.some_bind] at hfa
      by_cases he : a.2 = ""
      · rw [if_pos he] at hfa; exact absurd hfa (by simp)
      · rw [if_neg he] at hfa
        have hpa : p = (tmdbKey, a.2) := (Option.some_inj.mp hfa).symm
        rw [hpa]
        exact ⟨objGet_mem_map_snd _ _ _ hg, he⟩

/-- C1 witness: a query carrying an unknown field (`evil_param`) and an
empty-valued allow-listed field (`sort_by`) yields exactly the credential,
the language default and `with_genres`; the theorem applies to the
`with_genres` parameter. -/
theorem fetchUrlParams_allowlisted_witness :
    ("with_genres", "35") ∈ fetchUrlParams (fun _ _ => none) (fun _ => none) "KEY"
        [("evil_param", "x"), ("with_genres", "35"), ("sort_by", "")]
    ∧ (("with_genres", "35").1 = "api_key" ∨ ("with_genres", "35").1 = "language"
        ∨ (("with_genres", "35").1 ∈ tmdbMappings.map Prod.snd
            ∧ ("with_genres", "35").2 ≠ "")) :=
  ⟨by decide,
   fetchUrlParams_allowlisted (fun _ _ => none) (fun _ => none) "KEY"
     [("evil_param", "x"), ("with_genres", "35"), ("sort_by", "")]
     ("with_genres", "35") (by decide)⟩

/-! ## C2 — genre refresh is not atomic across the two taxonomies -/

/-- C2 counterexample: the claim states a failed refresh leaves both
existing mappings untouched.  Starting from a non-empty cached directory,
a refresh whose film fetch succeeds and whose series fetch then throws
(`tvFetch = none`) replaces the film mapping, so the cached state is
changed. -/
theorem fetchGenresFromTMDB_partial_update :
    fetchGenresFromTMDB ⟨[("action", 28)], [("drama", 18)]⟩
        (some [⟨"Comedy", 35⟩]) none
      ≠ ⟨[("action", 28)], [("drama", 18)]⟩
    ∧ (fetchGenresFromTMDB ⟨[("action", 28)], [("drama", 18)]⟩
        (some [⟨"Comedy", 35⟩]) none).movieGenreMap ≠ [("action", 28)] := by
  constructor
  · decide
  · decide

/-- C2 (amended): `refresh()` replaces each mapping wholesale with the
freshly fetched taxonomy, never partially rebuilding one; a failure
before the film fetch completes leaves both mappings untouched, while a
failure during the series fetch leaves the series mapping untouched even
though the film mapping has already been replaced; on full success both
mappings are replaced. -/
theorem fetchGenresFromTMDB_spec (st : GenreState)
    (mf tf : Option (List TMDBGenre)) :
    (mf = none → fetchGenresFromTMDB st mf tf = st)
    ∧ (∀ mg, mf = some mg →
        (fetchGenresFromTMDB st mf tf).movieGenreMap = buildGenreMap mg)
    ∧ (∀ mg, mf = some mg → tf = none →
        (fetchGenresFromTMDB st mf tf).tvGenreMap = st.tvGenreMap)
    ∧ (∀ mg tg, mf = some mg → tf = some tg →
        (fetchGenresFromTMDB st mf tf).tvGenreMap = buildGenreMap tg) := by
  refine ⟨?_, ?_, ?_, ?_⟩
  · rintro rfl; rfl
  · rintro mg rfl; cases tf <;> rfl
  · rintro mg rfl rfl; rfl
  · rintro mg tg rfl rfl; rfl

/-- C2 witness: a fully failed refresh keeps the cached state; a refresh
failing at the series fetch keeps the series mapping. -/
theorem fetchGenresFromTMDB_spec_witness :
    fetchGenresFromTMDB ⟨[("action", 28)], [("drama", 18)]⟩ none none
        = ⟨[("action", 28)], [("drama", 18)]⟩
    ∧ (fetchGenresFromTMDB ⟨[("action", 28)], [("drama", 18)]⟩
        (some [⟨"Comedy", 35⟩]) none).tvGenreMap = [("drama", 18)] :=
  ⟨(fetchGenresFromTMDB_spec ⟨[("action", 28)], [("drama", 18)]⟩ none none).1 rfl,
   (fetchGenresFromTMDB_spec ⟨[("action", 28)], [("drama", 18)]⟩
      (some [⟨"Comedy", 35⟩]) none).2.2.1 [⟨"Comedy", 35⟩] rfl rfl⟩

/-! ## C3 — the keyword merge duplicates an id shared between the
pre-existing filter and the resolution result -/

/-- C3: evaluating the keyword merge at a query whose pre-existing
id-based filter already contains `123` while the keyword search resolves
the single name to the same id `123`.  The `Set` of server.js line 284
holds the pre-existing entry as the string `"123"` and the resolved id as
the number `123`, which SameValueZero keeps distinct, so the merged
pipe-separated list is `"123|123"` — a duplicate id, contradicting the
claim and the code's own `// Ensure unique IDs` comment. -/
theorem processKeywordNames_duplicate_id :
    objGet (processKeywordNames (fun _ => some 123)
        [("with_keywords", "123"), ("with_keywords_names", "heist")]) "with_keywords"
      = some "123|123"
    ∧ ¬ (splitTrim '|' "123|123").Nodup := by
  constructor
  · decide
  · decide

/-! ## C4 — cast-name resolution -/

/-- C4 counterexample: the claim states the name-based cast field is
removed for every query carrying it.  A `with_cast_names` field present
with the empty (falsy) value skips the whole resolution block including
the `delete`, so the field survives in the query object. -/
theorem processCastNames_empty_value_survives :
    objGet (processCastNames (fun _ _ => some 1) "en-US" [("with_cast_names", "")])
        "with_cast_names" = some "" := by
  decide

/-- C4 (amended): for every query whose cast-names field has a non-empty
value, the value is split on commas, trimmed and resolved; the id-based
cast filter is installed (overwriting any pre-existing one) with exactly
the resolved ids if at least one name resolves, and is left as it was
otherwise; the name-based field is then removed regardless of resolution
success.  A cast-names field with an empty value survives in the query
object, but — being outside the allow-list — still never reaches the
issued catalog request. -/
theorem processCastNames_spec (personSearch : String → String → Option Nat)
    (languageParam : String) (queryParams : QueryObj) (v : String)
    (hv : objGet queryParams "with_cast_names" = some v) (hne : v ≠ "") :
    objGet (processCastNames personSearch languageParam queryParams)
        "with_cast_names" = none
    ∧ (fetchActorIdsByNames personSearch (splitTrim ',' v) languageParam ≠ [] →
        objGet (processCastNames personSearch languageParam queryParams) "with_cast"
          = some (joinSep ","
              ((fetchActorIdsByNames personSearch (splitTrim ',' v) languageParam).map
                Nat.repr)))
    ∧ (fetchActorIdsByNames personSearch (splitTrim ',' v) languageParam = [] →
        objGet (processCastNames personSearch languageParam queryParams) "with_cast"
          = objGet queryParams "with_cast") := by
  have hpc : processCastNames personSearch languageParam queryParams
      = objDelete
          (if (fetchActorIdsByNames personSearch (splitTrim ',' v) languageParam).isEmpty
            then queryParams
            else objSet queryParams "with_cast"
              (joinSep ","
                ((fetchActorIdsByNames personSearch (splitTrim ',' v) languageParam).map
                  Nat.repr)))
          "with_cast_names" := by
    rw [processCastNames, hv]
    simp only [hne, ite_false, if_neg]
  refine ⟨?_, ?_, ?_⟩
  · rw [hpc]; exact objGet_objDelete_self _ _
  · intro hids
    rw [hpc, if_neg (by rw [isEmpty_false_of_ne_nil hids]; exact Bool.false_ne_true),
      objGet_objDelete_ne _ _ _ (by decide)]
    exact objGet_objSet_self _ _ _
  · intro hids
    rw [hpc, if_pos (by rw [hids]; rfl),
      objGet_objDelete_ne _ _ _ (by decide)]

/-- C4 witness: resolving a cast-names field with two names of which only
the first resolves installs a single-id cast filter and removes the
name-based field. -/
theorem processCastNames_spec_witness :
    objGet (processCastNames (fun n _ => if n = "tom hanks" then some 31 else none)
        "en-US" [("with_cast_names", "tom hanks, leonardo dicaprio")])
        "with_cast_names" = none
    ∧ objGet (processCastNames (fun n _ => if n = "tom hanks" then some 31 else none)
        "en-US" [("with_cast_names", "tom hanks, leonardo dicaprio")])
        "with_cast" = some "31" :=
  ⟨(processCastNames_spec (fun n _ => if n = "tom hanks" then some 31 else none)
      "en-US" [("with_cast_names", "tom hanks, leonardo dicaprio")]
      "tom hanks, leonardo dicaprio" (by decide) (by decide)).1,
   ((processCastNames_spec (fun n _ => if n = "tom hanks" then some 31 else none)
      "en-US" [("with_cast_names", "tom hanks, leonardo dicaprio")]
      "tom hanks, leonardo dicaprio" (by decide) (by decide)).2.1
      (by decide)).trans (by decide)⟩

/-! ## C5 — synthesis degrades to the empty query -/

/-- C5: whenever the sanitized model output fails to parse as a JSON
object, and whenever the synthesis model call itself fails,
`generateTMDBQuery` returns the empty query object — which has no fields
at all, so no field of the result can raise downstream. -/
theorem generateTMDBQuery_parse_failure :
    (∀ (jsonParse : String → Option QueryObj) (raw : String),
        jsonParse (sanitizeAIResponse (strTrim raw)) = none →
        generateTMDBQuery jsonParse (some raw) = [])
    ∧ (∀ jsonParse : String → Option QueryObj,
        generateTMDBQuery jsonParse none = []) := by
  constructor
  · intro jsonParse raw h
    rw [generateTMDBQuery, h]
  · intro jsonParse; rfl

/-- C5 witness: a parser that rejects everything, applied to a non-JSON
model answer, and a failed transport both yield the empty query. -/
theorem generateTMDBQuery_parse_failure_witness :
    generateTMDBQuery (fun _ => none) (some "this is not json") = []
    ∧ generateTMDBQuery (fun _ => none) none = [] :=
  ⟨generateTMDBQuery_parse_failure.1 (fun _ => none) "this is not json" rfl,
   generateTMDBQuery_parse_failure.2 (fun _ => none)⟩

/-! ## C6 — classification falls back to the negative label -/

/-- C6: for every classifier model output whose normalized form
(`trim().toLowerCase()`) is neither of the two positive labels, and for a
failed classification call, `classifyRequest` returns the fail-safe label
`"none"` (the spec's `other`); being a total function of the oracle
outcome, it never surfaces an error to the caller. -/
theorem classifyRequest_fail_safe :
    (∀ s : String, strToLower (strTrim s) ≠ "movie" → strToLower (strTrim s) ≠ "tv" →
        classifyRequest (some s) = "none")
    ∧ classifyRequest none = "none" := by
  constructor
  · intro s h1 h2
    rw [classifyRequest]
    simp only [h1, h2, ite_false, if_neg]
  · rfl

/-- C6 witness: an off-label answer and a failed call both classify as
`"none"`. -/
theorem classifyRequest_fail_safe_witness :
    classifyRequest (some "I like pizza") = "none"
    ∧ classifyRequest none = "none" :=
  ⟨classifyRequest_fail_safe.1 "I like pizza" (by decide) (by decide),
   classifyRequest_fail_safe.2⟩

/-! ## C9 — request validation -/

/-- C9: for a request body whose messages list is absent or empty, the
respond endpoint answers 400 with the error message, independently of
every oracle — so no classification or other pipeline step can influence
(or be reached by) the rejection; and for every non-empty messages list
the endpoint answers with the 200 reply, so this validation is the only
hard failure the handler itself produces (the generic 500 is the
surrounding catch for unhandled exceptions). -/
theorem apiRespond_validation :
    (∀ env : Env, apiRespond env none = .badRequest "No messages provided")
    ∧ (∀ env : Env, apiRespond env (some []) = .badRequest "No messages provided")
    ∧ (∀ (env : Env) (msgs : List ConversationMessage), msgs ≠ [] →
        ∃ r d q t, apiRespond env (some msgs) = RespondResult.ok r d q t) := by
  refine ⟨fun env => rfl, fun env => rfl, fun env msgs h => ?_⟩
  obtain ⟨m, hm⟩ := Option.isSome_iff_exists.mp (List.getLast?_isSome.mpr h)
  simp only [apiRespond, hm]
  by_cases hrt : classifyRequest (env.classifyModel m.content) = "movie"
      ∨ classifyRequest (env.classifyModel m.content) = "tv"
  · rw [if_pos hrt]
    exact ⟨_, _, _, _, rfl⟩
  · rw [if_neg hrt]
    exact ⟨_, _, _, _, rfl⟩

/-- C9 witness: the rejection at an absent and at an empty list, and the
200 reply at a one-message history, for the dummy oracle bundle. -/
theorem apiRespond_validation_witness :
    apiRespond dummyEnv none = .badRequest "No messages provided"
    ∧ apiRespond dummyEnv (some []) = .badRequest "No messages provided"
    ∧ ∃ r d q t, apiRespond dummyEnv (some [⟨"user", "hi"⟩]) = RespondResult.ok r d q t :=
  ⟨apiRespond_validation.1 dummyEnv, apiRespond_validation.2.1 dummyEnv,
   apiRespond_validation.2.2 dummyEnv [⟨"user", "hi"⟩] (by decide)⟩

/-! ## C7 — discovery failure degrades to the no-matches 200 reply -/

/-- C7: when the catalog discovery call fails (the discover oracle throws
on every parameter list), `fetchFromTMDB` returns the empty item sequence
for every query with no retry; `refineResultsWithAI` on the empty
sequence equals the fixed no-matches sentence referencing the intent's
media kind for every refine-model oracle, so no model call can influence
it; and the orchestrator still answers with the 200 reply carrying that
sentence rather than an error status. -/
theorem apiRespond_discover_failure (env : Env) (msgs : List ConversationMessage)
    (lastMsg : ConversationMessage) (rt : String)
    (hd : ∀ ps, env.discover ps = none)
    (hl : msgs.getLast? = some lastMsg)
    (hrt : classifyRequest (env.classifyModel lastMsg.content) = rt)
    (hmv : rt = "movie" ∨ rt = "tv") :
    (∀ qp, (fetchFromTMDB env.personSearch env.keywordSearch env.discover
        env.apiKey qp rt).2 = [])
    ∧ refineResultsWithAI env.refineModel lastMsg.content [] rt = noMatchesMessage rt
    ∧ ∃ qp, apiRespond env (some msgs)
        = RespondResult.ok (noMatchesMessage rt) (some []) (some qp) (some rt) := by
  have hfetch : ∀ qp rt', (fetchFromTMDB env.personSearch env.keywordSearch env.discover
      env.apiKey qp rt').2 = [] := by
    intro qp rt'
    simp only [fetchFromTMDB, hd]
  refine ⟨fun qp => hfetch qp rt, rfl, ?_⟩
  refine ⟨(fetchFromTMDB env.personSearch env.keywordSearch env.discover env.apiKey
    (generateTMDBQuery env.jsonParse (env.synthModel lastMsg.content rt)) rt).1, ?_⟩
  simp only [apiRespond, hl, hrt]
  rw [if_pos hmv, hfetch]
  rfl

/-- C7 witness: a one-message history classified as a movie request with
a failing discover oracle yields the 200 reply carrying the movie
no-matches sentence. -/
theorem apiRespond_discover_failure_witness :
    refineResultsWithAI dummyEnv.refineModel "recommend a movie" [] "movie"
        = noMatchesMessage "movie"
    ∧ ∃ qp, apiRespond { dummyEnv with classifyModel := fun _ => some "movie" }
        (some [⟨"user", "recommend a movie"⟩])
        = RespondResult.ok (noMatchesMessage "movie") (some []) (some qp) (some "movie") :=
  ⟨(apiRespond_discover_failure { dummyEnv with classifyModel := fun _ => some "movie" }
      [⟨"user", "recommend a movie"⟩] ⟨"user", "recommend a movie"⟩ "movie"
      (fun _ => rfl) rfl (by decide) (Or.inl rfl)).2.1,
   (apiRespond_discover_failure { dummyEnv with classifyModel := fun _ => some "movie" }
      [⟨"user", "recommend a movie"⟩] ⟨"user", "recommend a movie"⟩ "movie"
      (fun _ => rfl) rfl (by decide) (Or.inl rfl)).2.2⟩

/-! ## C10 — the recommendation path reads only the trailing message -/

/-- C10: classification and synthesis are driven by the content of the
trailing message alone, so two non-empty histories whose last messages
have equal content and which classify to a recommendation intent produce
identical responses (text, items, echoed query and request type); and the
dependence on earlier history is confined to the general-response path,
where two histories with equal trailing content can produce different
replies. -/
theorem apiRespond_last_message_only :
    (∀ (env : Env) (m₁ m₂ : List ConversationMessage)
        (l₁ l₂ : ConversationMessage),
        m₁.getLast? = some l₁ → m₂.getLast? = some l₂ → l₁.content = l₂.content →
        (classifyRequest (env.classifyModel l₁.content) = "movie"
          ∨ classifyRequest (env.classifyModel l₁.content) = "tv") →
        apiRespond env (some m₁) = apiRespond env (some m₂))
    ∧ ∃ (env : Env) (m₁ m₂ : List ConversationMessage)
        (l₁ l₂ : ConversationMessage),
        m₁.getLast? = some l₁ ∧ m₂.getLast? = some l₂ ∧ l₁.content = l₂.content
        ∧ classifyRequest (env.classifyModel l₁.content) = "none"
        ∧ apiRespond env (some m₁) ≠ apiRespond env (some m₂) := by
  constructor
  · intro env m₁ m₂ l₁ l₂ h₁ h₂ hc hrec
    rw [hc] at hrec
    simp only [apiRespond, h₁, h₂, hc]
    rw [if_pos hrec, if_pos hrec]
  · refine ⟨{ dummyEnv with
        classifyModel := fun _ => some "none",
        normalModel := fun msgs => some (Nat.repr msgs.length) },
      [⟨"user", "earlier"⟩, ⟨"user", "hi"⟩], [⟨"user", "hi"⟩],
      ⟨"user", "hi"⟩, ⟨"user", "hi"⟩, by decide, by decide, rfl, by decide, by decide⟩

/-- C10 witness: two histories of different length but equal trailing
content, classified as a movie request, produce the same reply. -/
theorem apiRespond_last_message_only_witness :
    apiRespond { dummyEnv with classifyModel := fun _ => some "movie" }
        (some [⟨"user", "earlier"⟩, ⟨"user", "recommend a movie"⟩])
      = apiRespond { dummyEnv with classifyModel := fun _ => some "movie" }
        (some [⟨"user", "recommend a movie"⟩]) :=
  apiRespond_last_message_only.1
    { dummyEnv with classifyModel := fun _ => some "movie" }
    [⟨"user", "earlier"⟩, ⟨"user", "recommend a movie"⟩]
    [⟨"user", "recommend a movie"⟩]
    ⟨"user", "recommend a movie"⟩ ⟨"user", "recommend a movie"⟩
    (by decide) (by decide) rfl (Or.inl (by decide))

/-! ## C8 — sanitizer lemmas -/

theorem eq_of_data_eq {a b : String} (h : a.data = b.data) : a = b := by
  cases a
  cases b
  exact congrArg String.mk h

theorem isPrefixOf_append_self (l t : List Char) : l.isPrefixOf (l ++ t) = true := by
  rw [List.isPrefixOf_iff_prefix]
  exact List.prefix_append l t

theorem replaceFenceJson_append (t : List Char) :
    replaceFenceJson (fenceJson ++ t) = t.dropWhile jsWs := by
  rw [replaceFenceJson.eq_def, if_pos (isPrefixOf_append_self fenceJson t), List.drop_left]

theorem dropWhile_append_eq_self {u : List Char} (hu : u.dropWhile jsWs = u)
    (hne : u ≠ []) (t : List Char) : (u ++ t).dropWhile jsWs = u ++ t := by
  cases u with
  | nil => exact absurd rfl hne
  | cons a as =>
    have ha : jsWs a = false := head_not_ws_of_dropWhile_eq hu
    rw [List.cons_append, List.dropWhile_cons,
      if_neg (by rw [ha]; exact Bool.false_ne_true)]

theorem stripTrailingFence_append (u : List Char) :
    stripTrailingFence (u ++ "\n```".data) = u ++ ['\n'] := by
  have hb3 : backtick3 = [backtickChar, backtickChar, backtickChar] := by decide
  have hrev : (u ++ "\n```".data).reverse
      = backtickChar :: backtickChar :: backtickChar :: '\n' :: u.reverse := by
    rw [List.reverse_append]
    have h1 : "\n```".data.reverse = [backtickChar, backtickChar, backtickChar, '\n'] := by
      decide
    rw [h1]
    rfl
  have hdw : (u ++ "\n```".data).reverse.dropWhile jsWs
      = backtickChar :: backtickChar :: backtickChar :: '\n' :: u.reverse := by
    rw [hrev, List.dropWhile_cons,
      if_neg (by rw [show jsWs backtickChar = false from by decide]
                 exact Bool.false_ne_true)]
  have hpre : backtick3.isPrefixOf
      (backtickChar :: backtickChar :: backtickChar :: '\n' :: u.reverse) = true := by
    have h2 : backtickChar :: backtickChar :: backtickChar :: '\n' :: u.reverse
        = backtick3 ++ ('\n' :: u.reverse) := by rw [hb3]; rfl
    rw [h2]
    exact isPrefixOf_append_self _ _
  simp only [stripTrailingFence]
  rw [hdw, if_pos hpre, show backtick3.length = 3 from by decide]
  show ('\n' :: u.reverse).reverse = u ++ ['\n']
  rw [List.reverse_cons, List.reverse_reverse]

theorem trimChars_append_ws (u : List Char) (c : Char) (hc : jsWs c = true)
    (hlead : u.dropWhile jsWs = u) (htrail : u.reverse.dropWhile jsWs = u.reverse) :
    trimChars (u ++ [c]) = u := by
  cases u with
  | nil => simp [trimChars, List.dropWhile_cons, hc]
  | cons a as =>
    have ha : jsWs a = false := head_not_ws_of_dropWhile_eq hlead
    simp only [trimChars]
    rw [List.cons_append, List.dropWhile_cons,
      if_neg (by rw [ha]; exact Bool.false_ne_true),
      show a :: (as ++ [c]) = (a :: as) ++ [c] from rfl, List.reverse_append,
      show ([c].reverse ++ (a :: as).reverse) = c :: (a :: as).reverse from rfl,
      List.dropWhile_cons, if_pos hc, htrail, List.reverse_reverse]

theorem stripLC_true_no_term (w : List Char)
    (hw : ∀ c ∈ w, ¬(c = '\n' ∨ c = '\r')) : stripLC true w = [] := by
  induction w with
  | nil => rfl
  | cons c rest ih =>
    simp only [stripLC]
    rw [if_neg (hw c (List.mem_cons_self c rest))]
    exact ih (fun x hx => hw x (List.mem_cons_of_mem c hx))

theorem stripLC_false_no_comment (l : List Char) (h : hasDoubleSlash l = false) :
    stripLC false l = l := by
  induction l with
  | nil => rfl
  | cons c rest ih =>
    cases rest with
    | nil => rfl
    | cons c₂ rest₂ =>
      have hcond : ¬(c = '/' ∧ c₂ = '/') := by
        intro hcc
        rw [hasDoubleSlash, if_pos hcc] at h
        exact absurd h (by decide)
      have hrest : hasDoubleSlash (c₂ :: rest₂) = false := by
        rw [hasDoubleSlash, if_neg hcond] at h
        exact h
      simp only [stripLC]
      rw [if_neg hcond, ih hrest]

theorem stripLC_false_cons_cons (c₁ c₂ : Char) (rest : List Char) :
    stripLC false (c₁ :: c₂ :: rest)
      = if c₁ = '/' ∧ c₂ = '/' then stripLC true rest
        else c₁ :: stripLC false (c₂ :: rest) := rfl

theorem stripLC_false_append_comment (u w : List Char)
    (hu : hasDoubleSlash (u ++ ['/']) = false) :
    stripLC false (u ++ '/' :: '/' :: w) = u ++ stripLC true w := by
  induction u with
  | nil =>
    rw [List.nil_append, List.nil_append, stripLC_false_cons_cons,
      if_pos ⟨rfl, rfl⟩]
  | cons c u' ih =>
    cases u' with
    | nil =>
      have hcond : ¬(c = '/' ∧ ('/' : Char) = '/') := by
        intro hcc
        rw [List.cons_append, List.nil_append, hasDoubleSlash, if_pos hcc] at hu
        exact absurd hu (by decide)
      rw [List.cons_append, List.nil_append, List.cons_append, List.nil_append,
        stripLC_false_cons_cons, if_neg hcond, stripLC_false_cons_cons,
        if_pos ⟨rfl, rfl⟩]
    | cons c₂ u'' =>
      have hcond : ¬(c = '/' ∧ c₂ = '/') := by
        intro hcc
        rw [List.cons_append, List.cons_append, hasDoubleSlash, if_pos hcc] at hu
        exact absurd hu (by decide)
      have hu' : hasDoubleSlash ((c₂ :: u'') ++ ['/']) = false := by
        rw [List.cons_append, List.cons_append, hasDoubleSlash, if_neg hcond] at hu
        rw [List.cons_append]
        exact hu
      have ihres := ih hu'
      rw [List.cons_append] at ihres
      rw [List.cons_append, List.cons_append, stripLC_false_cons_cons, if_neg hcond,
        ihres]
      rfl

theorem hasDoubleSlash_append_tail (u : List Char) (a : Char) (t : List Char)
    (hu : hasDoubleSlash u = false) (ha : a ≠ '/')
    (ht : hasDoubleSlash (a :: t) = false) :
    hasDoubleSlash (u ++ a :: t) = false := by
  induction u with
  | nil => exact ht
  | cons c u' ih =>
    cases u' with
    | nil =>
      rw [List.cons_append, List.nil_append, hasDoubleSlash,
        if_neg (fun hcc => ha hcc.2)]
      exact ht
    | cons c₂ u'' =>
      have hcond : ¬(c = '/' ∧ c₂ = '/') := by
        intro hcc
        rw [hasDoubleSlash, if_pos hcc] at hu
        exact absurd hu (by decide)
      have hu' : hasDoubleSlash (c₂ :: u'') = false := by
        rw [hasDoubleSlash, if_neg hcond] at hu
        exact hu
      have ihres := ih hu'
      rw [List.cons_append, List.cons_append, hasDoubleSlash, if_neg hcond]
      rw [List.cons_append] at ihres
      exact ihres

/-- The first three sanitization steps applied to a payload wrapped in a
complete json-labelled fence: the fence disappears and only the comment
pass and the final trim remain. -/
theorem sanitize_fence_reduces (m : String) (hmne : m.data ≠ [])
    (hlead : m.data.dropWhile jsWs = m.data)
    (htrail : m.data.reverse.dropWhile jsWs = m.data.reverse) :
    sanitizeAIResponse ("```json\n" ++ m ++ "\n```")
      = String.mk (trimChars (stripLineComments m.data)) := by
  have hdata : ("```json\n" ++ m ++ "\n```").data
      = fenceJson ++ ('\n' :: (m.data ++ "\n```".data)) := by
    rw [String.data_append, String.data_append,
      show "```json\n".data = fenceJson ++ ['\n'] from by decide,
      List.append_assoc, List.append_assoc]
    rfl
  simp only [sanitizeAIResponse]
  rw [hdata, replaceFenceJson_append, List.dropWhile_cons,
    if_pos (show jsWs '\n' = true from by decide),
    dropWhile_append_eq_self hlead hmne,
    stripTrailingFence_append,
    trimChars_append_ws m.data '\n' (by decide) hlead htrail]

/-! ## C8 — sanitization of fenced and commented model output -/

/-- C8 counterexample: the claim states any fenced code-block wrapping is
stripped, so a fenced JSON object parses like the bare object.  But the
first replacement only targets the marker labelled `json`: a plain-fenced
object keeps its opening backticks (only the closing fence is removed),
so the sanitized text is not the bare object. -/
theorem sanitizeAIResponse_plain_fence_kept :
    sanitizeAIResponse "```\n\x7b\x7d\n```" = "```\n\x7b\x7d"
    ∧ sanitizeAIResponse "```\n\x7b\x7d\n```" ≠ "\x7b\x7d" := by
  constructor
  · decide
  · decide

/-- C8 (amended): before parsing, the post-processing strips a
json-labelled opening fence, a trailing closing fence and line comments:
a payload wrapped in a complete ` ```json ` fence — with or without an
appended line comment — sanitizes back to the bare payload (for payloads
that are trimmed, backtick-comment-free, and, for the comment form,
non-empty with a terminator-free non-padded comment text).  A fence not
labelled `json` keeps its opening backticks, so only the labelled
wrapping is transparent to the parser. -/
theorem sanitizeAIResponse_fence_and_comments :
    (∀ s : String, hasDoubleSlash s.data = false →
        s.data.dropWhile jsWs = s.data →
        s.data.reverse.dropWhile jsWs = s.data.reverse →
        sanitizeAIResponse ("```json\n" ++ s ++ "\n```") = s)
    ∧ (∀ s note : String, hasDoubleSlash s.data = false →
        s.data.dropWhile jsWs = s.data →
        s.data.reverse.dropWhile jsWs = s.data.reverse →
        s.data ≠ [] →
        (∀ c ∈ note.data, ¬(c = '\n' ∨ c = '\r')) →
        note.data ≠ [] →
        note.data.reverse.dropWhile jsWs = note.data.reverse →
        sanitizeAIResponse ("```json\n" ++ s ++ " // " ++ note ++ "\n```") = s) := by
  constructor
  · intro s hds hlead htrail
    obtain ⟨d⟩ := s
    cases d with
    | nil => decide
    | cons c cs =>
      rw [sanitize_fence_reduces (String.mk (c :: cs)) (List.cons_ne_nil c cs)
        hlead htrail]
      show String.mk (trimChars (stripLC false (c :: cs))) = String.mk (c :: cs)
      rw [stripLC_false_no_comment _ hds, trimChars, hlead, htrail,
        List.reverse_reverse]
  · intro s note hds hlead htrail hsne hnote hnne htrailn
    have hassoc : "```json\n" ++ s ++ " // " ++ note ++ "\n```"
        = "```json\n" ++ (s ++ " // " ++ note) ++ "\n```" :=
      eq_of_data_eq (by simp [String.data_append, List.append_assoc])
    have hmid : (s ++ " // " ++ note).data
        = s.data ++ (' ' :: '/' :: '/' :: ' ' :: note.data) := by
      rw [String.data_append, String.data_append,
        show " // ".data = [' ', '/', '/', ' '] from by decide, List.append_assoc]
      rfl
    have hmlead : (s ++ " // " ++ note).data.dropWhile jsWs
        = (s ++ " // " ++ note).data := by
      rw [hmid]
      exact dropWhile_append_eq_self hlead hsne _
    have hmtrail : (s ++ " // " ++ note).data.reverse.dropWhile jsWs
        = (s ++ " // " ++ note).data.reverse := by
      rw [hmid, List.reverse_append,
        show (' ' :: '/' :: '/' :: ' ' :: note.data).reverse
          = note.data.reverse ++ [' ', '/', '/', ' '] from by
            rw [show ' ' :: '/' :: '/' :: ' ' :: note.data
              = [' ', '/', '/', ' '] ++ note.data from rfl, List.reverse_append]
            rfl,
        List.append_assoc]
      refine dropWhile_append_eq_self htrailn ?_ _
      intro hrev
      exact hnne (by simpa using congrArg List.reverse hrev)
    have hmne : (s ++ " // " ++ note).data ≠ [] := by
      rw [hmid]
      intro hh
      exact hsne (List.append_eq_nil.mp hh).1
    rw [hassoc, sanitize_fence_reduces _ hmne hmlead hmtrail]
    show String.mk (trimChars (stripLC false (s ++ " // " ++ note).data)) = s
    rw [hmid,
      show s.data ++ (' ' :: '/' :: '/' :: ' ' :: note.data)
        = (s.data ++ [' ']) ++ '/' :: '/' :: (' ' :: note.data) from by
          rw [List.append_assoc]; rfl,
      stripLC_false_append_comment _ _
        (by rw [List.append_assoc]
            exact hasDoubleSlash_append_tail s.data ' ' ['/'] hds (by decide) (by decide)),
      stripLC_true_no_term (' ' :: note.data) (by
        intro x hx
        rcases List.mem_cons.mp hx with hx | hx
        · rw [hx]; decide
        · exact hnote x hx),
      List.append_nil,
      trimChars_append_ws s.data ' ' (by decide) hlead htrail]

/-- C8 witness: a concrete JSON object wrapped in a json-labelled fence,
and the same object wrapped with an appended line comment, both sanitize
back to the bare object. -/
theorem sanitizeAIResponse_fence_and_comments_witness :
    sanitizeAIResponse ("```json\n" ++ "\x7b\"with_genres\": \"35\"\x7d" ++ "\n```")
        = "\x7b\"with_genres\": \"35\"\x7d"
    ∧ sanitizeAIResponse ("```json\n" ++ "\x7b\"with_genres\": \"35\"\x7d" ++ " // "
          ++ "the query" ++ "\n```")
        = "\x7b\"with_genres\": \"35\"\x7d" :=
  ⟨sanitizeAIResponse_fence_and_comments.1 "\x7b\"with_genres\": \"35\"\x7d"
      (by decide) (by decide) (by decide),
   sanitizeAIResponse_fence_and_comments.2 "\x7b\"with_genres\": \"35\"\x7d" "the query"
      (by decide) (by decide) (by decide) (by decide) (by decide) (by decide) (by decide)⟩
